import Mathlib

/-!
Verification of the matchmaking and pairing engine of the incognified bot.

The engine (matchmaking module) keeps a waiting queue of users, a registry of
active pairs, and per-user session/stat records; the user-state module keeps
report, skip-undo and reveal-request records.  JavaScript `Map`s are embedded
as functions `String → Option α` (only `get`/`set`/`has`/`delete` are ever
used on them, so insertion order is unobservable), the waiting queue as a
`List` (its order is observable via the FIFO scan), and JS `undefined`/absent
optional fields as `Option`.  `Array.findIndex` followed by `splice(i, 1)`
is embedded as `List.find?` / `List.eraseP` (remove the first entry
satisfying the predicate).  Timestamps (`Date.now()`) are threaded through as
an explicit `now : Nat` argument, in milliseconds.
-/

/-- JS truthiness test for an optional string field: `undefined`/absent and
the empty string are falsy. -/
def falsy : Option String → Bool
  | none => true
  | some s => s == ""

/-- Embedding of a JS `Map` keyed by user-id strings. -/
def SMap (α : Type) : Type := String → Option α

/-- Empty map. -/
def SMap.empty {α : Type} : SMap α := fun _ => none

/-- Translation of `Map.prototype.set`. -/
def SMap.set {α : Type} (m : SMap α) (k : String) (v : α) : SMap α :=
  fun k' => if k' = k then some v else m k'

/-- Translation of `Map.prototype.delete`. -/
def SMap.del {α : Type} (m : SMap α) (k : String) : SMap α :=
  fun k' => if k' = k then none else m k'

/-- Embedding of a JS `Set` of strings. -/
def StrSet : Type := String → Bool

/-- Empty set. -/
def StrSet.empty : StrSet := fun _ => false

/-- Translation of `Set.prototype.add`. -/
def StrSet.add (s : StrSet) (k : String) : StrSet :=
  fun k' => if k' = k then true else s k'

/-- Translation of `Set.prototype.delete`. -/
def StrSet.del (s : StrSet) (k : String) : StrSet :=
  fun k' => if k' = k then false else s k'

/-- The gender/preference filter fields carried by a queue entry or a joining
user (the fields of the objects `canMatch` inspects). -/
structure Filters where
  gender : Option String
  preference : Option String
deriving DecidableEq, Repr

/-- Translation of `canMatch(user1, user2)` from the matchmaking module: gender-preference
compatibility.  Literal translation of the nested conditionals. -/
def canMatch (user1 user2 : Filters) : Bool :=
  -- if (!user1.gender || !user2.gender) return true;
  if falsy user1.gender || falsy user2.gender then true
  -- if (!user1.preference || user1.preference === 'any') { ... }
  else if falsy user1.preference || user1.preference == some "any" then
    if falsy user2.preference || user2.preference == some "any" then true
    else user2.preference == user1.gender
  -- if (!user2.preference || user2.preference === 'any') { ... }
  else if falsy user2.preference || user2.preference == some "any" then
    user1.preference == user2.gender
  -- both have specific preferences: they must cross-match
  else user1.preference == user2.gender && user2.preference == user1.gender

/-- A preference that imposes no constraint: unset (absent/empty) or "any". -/
def prefOpen (u : Filters) : Bool :=
  falsy u.preference || u.preference == some "any"

/-- The specification's reference compatibility definition, written from the
spec's wording: no declared gender on either side means compatible; an
unset/"any" preference on one side is compatible when the other side's
preference is unset/"any" or names this side's gender (stated for either
side); two specific preferences must cross-match. -/
def specCompat (a b : Filters) : Bool :=
  if falsy a.gender || falsy b.gender then true
  else if prefOpen a then prefOpen b || b.preference == a.gender
  else if prefOpen b then prefOpen a || a.preference == b.gender
  else (a.preference == b.gender) && (b.preference == a.gender)

/-- C2: the compatibility predicate used by join (`canMatch`) agrees with the
spec's reference definition over gender and preference for all filter
records. -/
theorem canMatch_eq_specCompat (a b : Filters) : canMatch a b = specCompat a b := by
  unfold canMatch specCompat prefOpen
  by_cases hg : (falsy a.gender || falsy b.gender) = true
  · simp [hg]
  · by_cases hpa : (falsy a.preference || a.preference == some "any") = true <;>
      by_cases hpb : (falsy b.preference || b.preference == some "any") = true <;>
      simp [hg, hpa, hpb]

/-- C9: the compatibility predicate is symmetric for every pair of filter
records. -/
theorem canMatch_symm (a b : Filters) : canMatch a b = canMatch b a := by
  unfold canMatch
  by_cases hg : falsy a.gender = true <;> by_cases hg' : falsy b.gender = true <;>
    by_cases hpa : (falsy a.preference || a.preference == some "any") = true <;>
    by_cases hpb : (falsy b.preference || b.preference == some "any") = true <;>
    simp [hg, hg', hpa, hpb, Bool.and_comm]

/-- A waiting-queue entry: `{ userId, chatId, gender, preference }`. -/
structure QueueEntry where
  userId : String
  chatId : String
  gender : Option String
  preference : Option String
deriving DecidableEq, Repr

/-- The filter fields of a queue entry (what `canMatch` reads off it). -/
def QueueEntry.filters (e : QueueEntry) : Filters :=
  ⟨e.gender, e.preference⟩

/-- An active-pairs registry value: `{ partnerId, partnerChatId }`. -/
structure PairInfo where
  partnerId : String
  partnerChatId : String
deriving DecidableEq, Repr

/-- A per-user session record held in `userStates`:
`{ state, gender, preference, chatStartTime }`. -/
structure Session where
  state : String
  gender : Option String
  preference : Option String
  chatStartTime : Option Nat
deriving DecidableEq, Repr

/-- A per-user stats record: `{ chats, messages, totalDuration }`. -/
structure Stats where
  chats : Nat
  messages : Nat
  totalDuration : Nat
deriving DecidableEq, Repr

/-- A report record held in `reportedUsers`:
`{ count, lastReportTime, banUntil }`. -/
structure ReportRecord where
  count : Nat
  lastReportTime : Option Nat
  banUntil : Option Nat
deriving DecidableEq, Repr

/-- A skip record held in `skippedPartners`:
`{ partnerId, partnerChatId, timestamp }`. -/
structure SkipRecord where
  partnerId : String
  partnerChatId : String
  timestamp : Nat
deriving DecidableEq, Repr

/-- A reveal request held in `revealRequests`:
`{ requesterId, username, timestamp }`. -/
structure RevealRecord where
  requesterId : String
  username : Option String
  timestamp : Nat
deriving DecidableEq, Repr

/-- The options object passed to `handleJoin`; `language` is carried by the
callers that search by language. -/
structure JoinOptions where
  gender : Option String := none
  preference : Option String := none
  language : Option String := none
deriving DecidableEq, Repr

/-- Payload of a forwarded message: `{ text, mediaType, fileId, caption }`. -/
structure MessageData where
  text : Option String := none
  mediaType : Option String := none
  fileId : Option String := none
  caption : Option String := none
deriving DecidableEq, Repr

/-- The messages the engine hands to the response callback. -/
inductive Response where
  | alreadyChatting (userId chatId : String)
  | alreadyWaiting (userId chatId : String)
  | matched (userId chatId partnerId partnerChatId : String)
  | waiting (userId chatId : String) (gender preference : Option String)
  | partnerLeft (userId chatId : String)
  | skipped (userId chatId : String)
  | notInChat (userId chatId : String)
  | forwardMessage (userId chatId : String) (data : MessageData) (fromUserId : String)
  | typingEvt (userId chatId fromUserId : String)
deriving DecidableEq, Repr

/-- The mutable module-level state of the matchmaking and user-state modules. -/
structure EngineState where
  waitingQueue : List QueueEntry
  activePairs : SMap PairInfo
  userChatIds : SMap String
  userStates : SMap Session
  userStats : SMap Stats
  reportsInSession : StrSet
  reportedUsers : SMap ReportRecord
  skippedPartners : SMap SkipRecord
  revealRequests : SMap RevealRecord

/-- The state at module load: everything empty. -/
def initState : EngineState :=
  ⟨[], SMap.empty, SMap.empty, SMap.empty, SMap.empty, StrSet.empty,
   SMap.empty, SMap.empty, SMap.empty⟩

/-- Translation of `USER_STATES` constants used by the engine. -/
def stateSearching : String := "searching"

/-- Translation of `USER_STATES.IN_CHAT`. -/
def stateInChat : String := "in_chat"

/-- Translation of `USER_STATES.IDLE`. -/
def stateIdle : String := "idle"

/-- Translation of `setUserState(userId, state)` with no extra fields: merge `state` into the
current record (`{}` when absent). -/
def setUserState (m : SMap Session) (userId st : String) : SMap Session :=
  match m userId with
  | some sess => m.set userId { sess with state := st }
  | none => m.set userId ⟨st, none, none, none⟩

/-- Translation of `setUserState(userId, state, { gender, preference })`: the spread
`{ ...current, state, gender, preference }` overwrites the gender and
preference fields (even with `undefined`). -/
def setUserStateGP (m : SMap Session) (userId st : String)
    (gender preference : Option String) : SMap Session :=
  match m userId with
  | some sess => m.set userId ⟨st, gender, preference, sess.chatStartTime⟩
  | none => m.set userId ⟨st, gender, preference, none⟩

/-- Translation of `clearUserState(userId)`. -/
def clearUserState (m : SMap Session) (userId : String) : SMap Session :=
  m.del userId

/-- Translation of `getUserGender(userId)`: the `{ gender, preference }` slice of the session
record, or `null` when no session exists. -/
def getUserGender (m : SMap Session) (userId : String) :
    Option (Option String × Option String) :=
  match m userId with
  | some sess => some (sess.gender, sess.preference)
  | none => none

/-- Translation of `markChatStart(userId)`: stamp `chatStartTime = Date.now()` on the session
record (default `{ state: IDLE }` when absent). -/
def markChatStart (m : SMap Session) (userId : String) (now : Nat) : SMap Session :=
  match m userId with
  | some sess => m.set userId { sess with chatStartTime := some now }
  | none => m.set userId ⟨stateIdle, none, none, some now⟩

/-- Translation of `getUserStats(userId)` default record. -/
def getStatsD (m : SMap Stats) (userId : String) : Stats :=
  (m userId).getD ⟨0, 0, 0⟩

/-- Translation of `incrementChatCount(userId)`. -/
def incrementChatCount (m : SMap Stats) (userId : String) : SMap Stats :=
  m.set userId { getStatsD m userId with chats := (getStatsD m userId).chats + 1 }

/-- Translation of `incrementMessageCount(userId)`. -/
def incrementMessageCount (m : SMap Stats) (userId : String) : SMap Stats :=
  m.set userId { getStatsD m userId with messages := (getStatsD m userId).messages + 1 }

/-- Translation of `addChatDuration(userId, durationMs)`. -/
def addChatDuration (m : SMap Stats) (userId : String) (durationMs : Nat) : SMap Stats :=
  m.set userId
    { getStatsD m userId with totalDuration := (getStatsD m userId).totalDuration + durationMs }

/-- Translation of `endChatAndRecordDuration(userId)`: when the session has a
`chatStartTime`, add the elapsed duration to the stats and drop the
`chatStartTime` field.  Acts on the `userStates` and `userStats` maps. -/
def endChatAndRecordDuration (states : SMap Session) (stats : SMap Stats)
    (userId : String) (now : Nat) : SMap Session × SMap Stats :=
  match states userId with
  | some sess =>
    match sess.chatStartTime with
    | some t0 =>
      (states.set userId { sess with chatStartTime := none },
       addChatDuration stats userId (now - t0))
    | none => (states, stats)
  | none => (states, stats)

/-- The session-scoped report de-duplication key `${reporterId}_${reportedId}`. -/
def sessionKey (reporterId reportedId : String) : String :=
  reporterId ++ "_" ++ reportedId

/-- Translation of `clearSessionReports(userId1, userId2)`: drop both orderings of the pair
from the de-duplication set. -/
def clearSessionReports (s : StrSet) (userId1 userId2 : String) : StrSet :=
  (s.del (sessionKey userId1 userId2)).del (sessionKey userId2 userId1)

/-- Translation of `isInChat(userId)`: `activePairs.has(userId)`. -/
def isInChat (s : EngineState) (userId : String) : Bool :=
  (s.activePairs userId).isSome

/-- Translation of `isInQueue(userId)`: `waitingQueue.some(u => u.userId === userId)`. -/
def isInQueue (s : EngineState) (userId : String) : Bool :=
  s.waitingQueue.any (fun u => u.userId == userId)

/-- The predicate `handleJoin` scans the queue with:
`u.userId !== userId && canMatch(userData, u)`. -/
def joinPred (userId : String) (f : Filters) (u : QueueEntry) : Bool :=
  u.userId != userId && canMatch f u.filters

/-- Translation of `handleJoin(userId, chatId, options)`.  Returns the mutated state and the
responses emitted.  The destructuring `const { gender, preference } = options`
ignores any `language` field of the options. -/
def handleJoin (s : EngineState) (userId chatId : String) (options : JoinOptions)
    (now : Nat) : EngineState × List Response :=
  let gender := options.gender
  let preference := options.preference
  -- userChatIds.set(userId, chatId);
  let s := { s with userChatIds := s.userChatIds.set userId chatId }
  -- if (activePairs.has(userId)) { already_chatting }
  if (s.activePairs userId).isSome then
    (s, [Response.alreadyChatting userId chatId])
  -- if (waitingQueue.find(u => u.userId === userId)) { already_waiting }
  else if (s.waitingQueue.find? (fun u => u.userId == userId)).isSome then
    (s, [Response.alreadyWaiting userId chatId])
  else
    -- setUserState(userId, SEARCHING, { gender, preference });
    let s := { s with userStates := setUserStateGP s.userStates userId stateSearching gender preference }
    let userData : QueueEntry := ⟨userId, chatId, gender, preference⟩
    -- findIndex(u => u.userId !== userId && canMatch(userData, u)) + splice
    match s.waitingQueue.find? (joinPred userId ⟨gender, preference⟩) with
    | some partner =>
      let s := { s with
        waitingQueue := s.waitingQueue.eraseP (joinPred userId ⟨gender, preference⟩),
        activePairs := (s.activePairs.set userId ⟨partner.userId, partner.chatId⟩).set
          partner.userId ⟨userId, chatId⟩,
        userStates := markChatStart (markChatStart
          (setUserState (setUserState s.userStates userId stateInChat)
            partner.userId stateInChat) userId now) partner.userId now,
        userStats := incrementChatCount (incrementChatCount s.userStats userId)
          partner.userId }
      (s, [Response.matched userId chatId partner.userId partner.chatId])
    | none =>
      ({ s with waitingQueue := s.waitingQueue ++ [userData] },
       [Response.waiting userId chatId gender preference])

/-- Translation of `handleLeave(userId)`. -/
def handleLeave (s : EngineState) (userId : String) (now : Nat) :
    EngineState × List Response :=
  -- remove from queue if present (findIndex + splice)
  let s := { s with waitingQueue := s.waitingQueue.eraseP (fun u => u.userId == userId) }
  match s.activePairs userId with
  | some pair =>
    let r1 := endChatAndRecordDuration s.userStates s.userStats userId now
    let r2 := endChatAndRecordDuration r1.1 r1.2 pair.partnerId now
    let s := { s with
      userStates := setUserState r2.1 pair.partnerId stateIdle,
      userStats := r2.2,
      reportsInSession := clearSessionReports s.reportsInSession userId pair.partnerId,
      activePairs := (s.activePairs.del userId).del pair.partnerId }
    -- clearUserState(userId); userChatIds.delete(userId);
    let s := { s with
      userStates := clearUserState s.userStates userId,
      userChatIds := s.userChatIds.del userId }
    (s, [Response.partnerLeft pair.partnerId pair.partnerChatId])
  | none =>
    let s := { s with
      userStates := clearUserState s.userStates userId,
      userChatIds := s.userChatIds.del userId }
    (s, [])

/-- Translation of `handleNext(userId, chatId)`: skip the current partner and rejoin with the
session's saved gender/preference, or cancel the search when only queued. -/
def handleNext (s : EngineState) (userId chatId : String) (now : Nat) :
    EngineState × List Response :=
  -- const genderInfo = getUserGender(userId);
  let genderInfo := getUserGender s.userStates userId
  match s.activePairs userId with
  | some pair =>
    let r1 := endChatAndRecordDuration s.userStates s.userStats userId now
    let r2 := endChatAndRecordDuration r1.1 r1.2 pair.partnerId now
    let s := { s with
      userStates := setUserState r2.1 pair.partnerId stateIdle,
      userStats := r2.2,
      reportsInSession := clearSessionReports s.reportsInSession userId pair.partnerId,
      activePairs := (s.activePairs.del userId).del pair.partnerId }
    -- handleJoin(userId, chatId, genderInfo || {});
    let options : JoinOptions :=
      match genderInfo with
      | some gp => ⟨gp.1, gp.2, none⟩
      | none => ⟨none, none, none⟩
    let out := handleJoin s userId chatId options now
    (out.1, [Response.partnerLeft pair.partnerId pair.partnerChatId,
             Response.skipped userId chatId] ++ out.2)
  | none =>
    if (s.waitingQueue.find? (fun u => u.userId == userId)).isSome then
      ({ s with waitingQueue := s.waitingQueue.eraseP (fun u => u.userId == userId) },
       [Response.notInChat userId chatId])
    else
      (s, [Response.notInChat userId chatId])

/-- Translation of `handleMessage(userId, messageData)`: forward to the partner, or report
`not_in_chat`. -/
def handleMessage (s : EngineState) (userId : String) (messageData : MessageData) :
    EngineState × List Response :=
  let chatId := s.userChatIds userId
  match s.activePairs userId with
  | none =>
    (s, match chatId with
        | some c => [Response.notInChat userId c]
        | none => [])
  | some pair =>
    ({ s with userStats := incrementMessageCount s.userStats userId },
     [Response.forwardMessage pair.partnerId pair.partnerChatId messageData userId])

/-- The `{ success, reason }` object returned by `reconnectPair`. -/
structure ReconnectResult where
  success : Bool
  reason : Option String
deriving DecidableEq, Repr

/-- Translation of `reconnectPair(userId, partnerId, chatId, partnerChatId)`: refuse when the
partner already has a pair; otherwise remove both users from the queue if
present, store both chat ids, create both registry entries, set both sessions
in-chat, stamp chat start and bump chat counters. -/
def reconnectPair (s : EngineState) (userId partnerId chatId partnerChatId : String)
    (now : Nat) : EngineState × ReconnectResult :=
  if (s.activePairs partnerId).isSome then
    (s, ⟨false, some "partner_busy"⟩)
  else
    let s := { s with
      waitingQueue := (s.waitingQueue.eraseP (fun u => u.userId == userId)).eraseP
        (fun u => u.userId == partnerId),
      userChatIds := (s.userChatIds.set userId chatId).set partnerId partnerChatId,
      activePairs := (s.activePairs.set userId ⟨partnerId, partnerChatId⟩).set
        partnerId ⟨userId, chatId⟩,
      userStates := markChatStart (markChatStart
        (setUserState (setUserState s.userStates userId stateInChat)
          partnerId stateInChat) userId now) partnerId now,
      userStats := incrementChatCount (incrementChatCount s.userStats userId) partnerId }
    (s, ⟨true, none⟩)

/-- Translation of `TEMP_BAN_THRESHOLD`: reports needed for the 30-minute ban. -/
def TEMP_BAN_THRESHOLD : Nat := 3

/-- Translation of `LONG_BAN_THRESHOLD`: reports needed for the 24-hour ban. -/
def LONG_BAN_THRESHOLD : Nat := 5

/-- Translation of `TEMP_BAN_DURATION`: 30 minutes in milliseconds. -/
def TEMP_BAN_DURATION : Nat := 30 * 60 * 1000

/-- Translation of `LONG_BAN_DURATION`: 24 hours in milliseconds. -/
def LONG_BAN_DURATION : Nat := 24 * 60 * 60 * 1000

/-- Outcome of `reportUser`. -/
inductive ReportOutcome where
  | duplicate
  | submitted
deriving DecidableEq, Repr

/-- Translation of `reportUser(reporterId, reportedId)` over the de-duplication set and the
`reportedUsers` map: reject a repeated (reporter, reported) key; otherwise
mark the key, bump the reported user's count and timestamp and apply the ban
thresholds (the 5-report threshold checked first). -/
def reportUser (sess : StrSet) (reports : SMap ReportRecord)
    (reporterId reportedId : String) (now : Nat) :
    StrSet × SMap ReportRecord × ReportOutcome :=
  let key := sessionKey reporterId reportedId
  if sess key then
    (sess, reports, ReportOutcome.duplicate)
  else
    let sess := sess.add key
    let current := (reports reportedId).getD ⟨0, none, none⟩
    let newCount := current.count + 1
    let banUntil :=
      if newCount ≥ LONG_BAN_THRESHOLD then some (now + LONG_BAN_DURATION)
      else if newCount ≥ TEMP_BAN_THRESHOLD then some (now + TEMP_BAN_DURATION)
      else current.banUntil
    (sess, reports.set reportedId ⟨newCount, some now, banUntil⟩, ReportOutcome.submitted)

/-- Translation of `UNDO_TIMEOUT`: 10 seconds in milliseconds. -/
def UNDO_TIMEOUT : Nat := 10 * 1000

/-- Translation of `setSkippedPartner(userId, partnerId, partnerChatId)`. -/
def setSkippedPartner (m : SMap SkipRecord) (userId partnerId partnerChatId : String)
    (now : Nat) : SMap SkipRecord :=
  m.set userId ⟨partnerId, partnerChatId, now⟩

/-- Translation of `getSkippedPartner(userId)`: `null` when absent; on an expired record
(`now - timestamp > UNDO_TIMEOUT`) delete it and return `null`; otherwise
return the record.  Returns the possibly mutated map alongside the result. -/
def getSkippedPartner (m : SMap SkipRecord) (userId : String) (now : Nat) :
    SMap SkipRecord × Option SkipRecord :=
  match m userId with
  | none => (m, none)
  | some data =>
    if now - data.timestamp > UNDO_TIMEOUT then (m.del userId, none)
    else (m, some data)

/-- Translation of `clearSkippedPartner(userId)`. -/
def clearSkippedPartner (m : SMap SkipRecord) (userId : String) : SMap SkipRecord :=
  m.del userId

/-- Code-unit comparison of two id strings as lists of characters, embedding
the default `Array.prototype.sort` string comparison used by `getPairKey`. -/
def strListLtb : List Char → List Char → Bool
  | [], [] => false
  | [], _ :: _ => true
  | _ :: _, [] => false
  | c :: cs, d :: ds => if c < d then true else if d < c then false else strListLtb cs ds

/-- String comparison for `getPairKey`'s sort. -/
def strLtb (a b : String) : Bool := strListLtb a.data b.data

/-- Translation of `getPairKey(userId1, userId2)`: `[userId1, userId2].sort().join('_')` —
an order-independent key for the pair. -/
def getPairKey (userId1 userId2 : String) : String :=
  if strLtb userId2 userId1 then userId2 ++ "_" ++ userId1
  else userId1 ++ "_" ++ userId2

/-- Translation of `setRevealRequest(requesterId, partnerId, username)`. -/
def setRevealRequest (m : SMap RevealRecord) (requesterId partnerId : String)
    (username : Option String) (now : Nat) : SMap RevealRecord :=
  m.set (getPairKey requesterId partnerId) ⟨requesterId, username, now⟩

/-- Translation of `getRevealRequest(userId1, userId2)`. -/
def getRevealRequest (m : SMap RevealRecord) (userId1 userId2 : String) :
    Option RevealRecord :=
  m (getPairKey userId1 userId2)

/-- Translation of `hasUserRequestedReveal(requesterId, partnerId)`: a request exists at the
pair key and was made by this requester. -/
def hasUserRequestedReveal (m : SMap RevealRecord) (requesterId partnerId : String) : Bool :=
  match getRevealRequest m requesterId partnerId with
  | some request => request.requesterId == requesterId
  | none => false

/-- Translation of `clearRevealRequest(userId1, userId2)`. -/
def clearRevealRequest (m : SMap RevealRecord) (userId1 userId2 : String) :
    SMap RevealRecord :=
  m.del (getPairKey userId1 userId2)

/-- Outcome of the undo-skip command. -/
inductive UndoOutcome where
  | expired
  | reconnected
  | partnerBusy
deriving DecidableEq, Repr

/-- Translation of `handleUndoSkip(chatId, userId)` from the command layer: look up the skip
record (lazily expiring it), then attempt `reconnectPair`; the skip record is
cleared in both the success and the partner-busy branch. -/
def handleUndoSkip (s : EngineState) (chatId userId : String) (now : Nat) :
    EngineState × UndoOutcome :=
  let looked := getSkippedPartner s.skippedPartners userId now
  let s := { s with skippedPartners := looked.1 }
  match looked.2 with
  | none => (s, UndoOutcome.expired)
  | some record =>
    let out := reconnectPair s userId record.partnerId chatId record.partnerChatId now
    if out.2.success then
      ({ out.1 with skippedPartners := clearSkippedPartner out.1.skippedPartners userId },
       UndoOutcome.reconnected)
    else
      ({ out.1 with skippedPartners := clearSkippedPartner out.1.skippedPartners userId },
       UndoOutcome.partnerBusy)

/-- Outcome of the reveal command. -/
inductive RevealOutcome where
  | noUsername
  | notInChat
  | alreadyRequested
  | mutualAccept (ownUsername partnerUsername : String)
  | requestSent
deriving DecidableEq, Repr

/-- Translation of `handleReveal(chatId, userId, username)` from the command layer: require a
username and an active pair; reject a repeated request by the same requester;
treat an outstanding request by the partner as mutual acceptance and clear the
record; otherwise store the one-sided request. -/
def handleReveal (s : EngineState) (chatId userId : String) (username : Option String)
    (now : Nat) : EngineState × RevealOutcome :=
  match username with
  | none => (s, RevealOutcome.noUsername)
  | some uname =>
    match s.activePairs userId with
    | none => (s, RevealOutcome.notInChat)
    | some partner =>
      let partnerId := partner.partnerId
      if hasUserRequestedReveal s.revealRequests userId partnerId then
        (s, RevealOutcome.alreadyRequested)
      else
        match getRevealRequest s.revealRequests userId partnerId with
        | some existingRequest =>
          if existingRequest.requesterId == partnerId then
            ({ s with revealRequests := clearRevealRequest s.revealRequests userId partnerId },
             RevealOutcome.mutualAccept uname (existingRequest.username.getD "unknown"))
          else
            let reqs := setRevealRequest s.revealRequests userId partnerId (some uname) now
            ({ s with revealRequests := reqs }, RevealOutcome.requestSent)
        | none =>
          let reqs := setRevealRequest s.revealRequests userId partnerId (some uname) now
          ({ s with revealRequests := reqs }, RevealOutcome.requestSent)

/-- States reachable from the empty module state by any finite sequence of
engine operations. -/
inductive Reachable : EngineState → Prop
  | empty : Reachable initState
  | join (s : EngineState) (userId chatId : String) (options : JoinOptions) (now : Nat) :
      Reachable s → Reachable (handleJoin s userId chatId options now).1
  | leave (s : EngineState) (userId : String) (now : Nat) :
      Reachable s → Reachable (handleLeave s userId now).1
  | next (s : EngineState) (userId chatId : String) (now : Nat) :
      Reachable s → Reachable (handleNext s userId chatId now).1
  | reconnect (s : EngineState) (userId partnerId chatId partnerChatId : String) (now : Nat) :
      Reachable s → Reachable (reconnectPair s userId partnerId chatId partnerChatId now).1
  | message (s : EngineState) (userId : String) (messageData : MessageData) :
      Reachable s → Reachable (handleMessage s userId messageData).1

/-- The user ids currently waiting in the queue. -/
def queueIds (s : EngineState) : List String :=
  s.waitingQueue.map QueueEntry.userId

/-- Queue/registry mutual exclusion: no user id is both a waiting-queue entry
and a key of the active-pairs registry. -/
def Exclusion (s : EngineState) : Prop :=
  ∀ u, isInQueue s u = true → isInChat s u = false

/-- Each user id appears at most once in the waiting queue. -/
def QueueNodup (s : EngineState) : Prop :=
  (queueIds s).Nodup

/-- The inductive invariant maintained by every engine operation. -/
def EngineInv (s : EngineState) : Prop :=
  Exclusion s ∧ QueueNodup s

/-- A successful `find?` splits the list at the first entry satisfying the
predicate, and `eraseP` removes exactly that entry. -/
theorem find?_split {α : Type} (p : α → Bool) (l : List α) (a : α)
    (h : l.find? p = some a) :
    ∃ l₁ l₂, l = l₁ ++ a :: l₂ ∧ (∀ b ∈ l₁, p b = false) ∧ l.eraseP p = l₁ ++ l₂ := by
  induction l with
  | nil => simp at h
  | cons x xs ih =>
    by_cases hx : p x = true
    · rw [List.find?_cons_of_pos _ hx] at h
      obtain rfl : x = a := by injection h
      exact ⟨[], xs, rfl, by simp, List.eraseP_cons_of_pos hx⟩
    · rw [List.find?_cons_of_neg _ (by simpa using hx)] at h
      obtain ⟨l₁, l₂, hsplit, hl₁, herase⟩ := ih h
      refine ⟨x :: l₁, l₂, by simp [hsplit], ?_, ?_⟩
      · intro b hb
        rcases List.mem_cons.mp hb with rfl | hb
        · simpa using hx
        · exact hl₁ b hb
      · rw [List.eraseP_cons_of_neg (by simpa using hx), herase]
        rfl

/-- Membership in an `eraseP` result is membership in the original list. -/
theorem mem_of_mem_eraseP {α : Type} {p : α → Bool} {l : List α} {a : α}
    (h : a ∈ l.eraseP p) : a ∈ l :=
  (List.eraseP_sublist l).subset h

/-- Removing an entry keeps the queue ids duplicate-free. -/
theorem nodup_map_eraseP {α β : Type} (f : α → β) (p : α → Bool) (l : List α)
    (h : (l.map f).Nodup) : ((l.eraseP p).map f).Nodup :=
  h.sublist ((List.eraseP_sublist l).map f)

/-- After erasing the (unique) entry of user `u`, no entry of user `u`
remains. -/
theorem eraseP_userId_gone (q : List QueueEntry) (u : String)
    (hnd : (q.map QueueEntry.userId).Nodup) :
    ∀ e ∈ q.eraseP (fun e => e.userId == u), e.userId ≠ u := by
  induction q with
  | nil => simp
  | cons x xs ih =>
    simp only [List.map_cons, List.nodup_cons, List.mem_map] at hnd
    by_cases hx : (x.userId == u) = true
    · have herase : List.eraseP (fun e => e.userId == u) (x :: xs) = xs :=
        List.eraseP_cons_of_pos hx
      rw [herase]
      intro e he heq
      exact hnd.1 ⟨e, he, by rw [heq, ← beq_iff_eq.mp hx]⟩
    · have herase : List.eraseP (fun e => e.userId == u) (x :: xs) =
          x :: List.eraseP (fun e => e.userId == u) xs :=
        List.eraseP_cons_of_neg (by simpa using hx)
      rw [herase]
      intro e he
      rcases List.mem_cons.mp he with rfl | he
      · simpa using hx
      · exact ih hnd.2 e he

/-- Lemma: `find?` deciding truthiness agrees with `any`. -/
theorem find?_isSome_eq_any {α : Type} (p : α → Bool) (l : List α) :
    (l.find? p).isSome = l.any p := by
  induction l with
  | nil => rfl
  | cons x xs ih =>
    by_cases h : p x = true
    · simp [List.find?_cons_of_pos _ h, h]
    · simp only [Bool.not_eq_true] at h
      simp [List.find?_cons_of_neg, h, ih]

/-- A failed membership scan means no queue entry carries the id. -/
theorem find?_userId_none (q : List QueueEntry) (uid : String)
    (h : (q.find? (fun u => u.userId == uid)).isSome = false) :
    ∀ e ∈ q, e.userId ≠ uid := by
  intro e he heq
  rw [find?_isSome_eq_any] at h
  have hany : q.any (fun u => u.userId == uid) = true :=
    List.any_eq_true.mpr ⟨e, he, by simp [heq]⟩
  rw [hany] at h
  exact Bool.true_eq_false.mp h

/-- Lemma: `handleJoin` preserves the queue/registry invariant. -/
theorem handleJoin_inv (s : EngineState) (userId chatId : String) (options : JoinOptions)
    (now : Nat) (h : EngineInv s) : EngineInv (handleJoin s userId chatId options now).1 := by
  obtain ⟨hex, hnd⟩ := h
  by_cases h1 : (s.activePairs userId).isSome = true
  · simp only [handleJoin, h1, if_true]
    exact ⟨hex, hnd⟩
  · by_cases h2 : (s.waitingQueue.find? (fun u => u.userId == userId)).isSome = true
    · simp only [handleJoin, h1, h2, Bool.false_eq_true, if_false, if_true]
      exact ⟨hex, hnd⟩
    · have h2' : (s.waitingQueue.find? (fun u => u.userId == userId)).isSome = false :=
        Bool.not_eq_true _ ▸ h2
      rcases hf : s.waitingQueue.find?
          (joinPred userId ⟨options.gender, options.preference⟩) with _ | partner
      · -- no compatible partner: append to the queue
        simp only [handleJoin, h1, h2, Bool.false_eq_true, if_false, hf]
        constructor
        · intro u hu
          obtain ⟨e, he, heq⟩ := List.any_eq_true.mp hu
          have hequ : e.userId = u := by simpa using heq
          rcases List.mem_append.mp he with hq | hud
          · exact hex u (List.any_eq_true.mpr ⟨e, hq, heq⟩)
          · have : e = ⟨userId, chatId, options.gender, options.preference⟩ := by
              simpa using hud
            have hu' : u = userId := by rw [← hequ, this]
            show (s.activePairs u).isSome = false
            rw [hu']
            exact Bool.not_eq_true _ ▸ h1
        · show ((s.waitingQueue ++ [_]).map QueueEntry.userId).Nodup
          rw [List.map_append]
          refine List.Nodup.append hnd (by simp) ?_
          intro a ha hb
          have hbu : a = userId := by simpa using hb
          obtain ⟨e, he, hequ⟩ := List.mem_map.mp ha
          exact find?_userId_none _ _ h2' e he (by rw [hequ, hbu])
      · -- matched: erase the partner entry, insert both registry entries
        simp only [handleJoin, h1, h2, Bool.false_eq_true, if_false, hf]
        obtain ⟨l₁, l₂, hqeq, hl₁, herase⟩ := find?_split _ _ _ hf
        have hpartner_mem : partner ∈ s.waitingQueue := List.mem_of_find?_eq_some hf
        have hqnodup : ((l₁ ++ partner :: l₂).map QueueEntry.userId).Nodup := by
          rw [← hqeq]; exact hnd
        have hpartner_not_rem : partner.userId ∉ (l₁ ++ l₂).map QueueEntry.userId := by
          rw [List.map_append, List.map_cons] at hqnodup
          rw [List.map_append]
          intro hmem
          rcases List.mem_append.mp hmem with hm | hm
          · exact (List.nodup_append.mp hqnodup).2.2 hm (List.mem_cons_self _ _)
          · exact (List.nodup_cons.mp (List.nodup_append.mp hqnodup).2.1).1 hm
        constructor
        · intro u hu
          obtain ⟨e, he, heq⟩ := List.any_eq_true.mp hu
          have hequ : e.userId = u := by simpa using heq
          have hmemq : e ∈ s.waitingQueue := mem_of_mem_eraseP he
          have hne_user : u ≠ userId := by
            intro hcontra
            exact find?_userId_none _ _ h2' e hmemq (by rw [hequ, hcontra])
          have hne_partner : u ≠ partner.userId := by
            intro hcontra
            apply hpartner_not_rem
            rw [← hcontra, ← hequ]
            have : e ∈ l₁ ++ l₂ := by rw [← herase]; exact he
            exact List.mem_map.mpr ⟨e, this, rfl⟩
          show ((((s.activePairs.set userId _).set partner.userId _)) u).isSome = false
          show (if u = partner.userId then _ else
            (if u = userId then _ else s.activePairs u)).isSome = false
          rw [if_neg hne_partner, if_neg hne_user]
          exact hex u (List.any_eq_true.mpr ⟨e, hmemq, heq⟩)
        · show ((s.waitingQueue.eraseP _).map QueueEntry.userId).Nodup
          exact nodup_map_eraseP _ _ _ hnd

/-- Lemma: `handleLeave` preserves the queue/registry invariant. -/
theorem handleLeave_inv (s : EngineState) (userId : String) (now : Nat)
    (h : EngineInv s) : EngineInv (handleLeave s userId now).1 := by
  obtain ⟨hex, hnd⟩ := h
  have hexq : ∀ u, (s.waitingQueue.eraseP (fun e => e.userId == userId)).any
      (fun e => e.userId == u) = true → (s.activePairs u).isSome = false := by
    intro u hu
    obtain ⟨e, he, heq⟩ := List.any_eq_true.mp hu
    exact hex u (List.any_eq_true.mpr ⟨e, mem_of_mem_eraseP he, heq⟩)
  rcases hp : s.activePairs userId with _ | pair
  · simp only [handleLeave, hp]
    exact ⟨hexq, nodup_map_eraseP _ _ _ hnd⟩
  · simp only [handleLeave, hp]
    constructor
    · intro u hu
      show (((s.activePairs.del userId).del pair.partnerId) u).isSome = false
      show (if u = pair.partnerId then none else
        (if u = userId then none else s.activePairs u)).isSome = false
      by_cases h1 : u = pair.partnerId
      · rw [if_pos h1]; rfl
      · rw [if_neg h1]
        by_cases h2 : u = userId
        · rw [if_pos h2]; rfl
        · rw [if_neg h2]; exact hexq u hu
    · exact nodup_map_eraseP _ _ _ hnd

/-- Lemma: `handleNext` preserves the queue/registry invariant. -/
theorem handleNext_inv (s : EngineState) (userId chatId : String) (now : Nat)
    (h : EngineInv s) : EngineInv (handleNext s userId chatId now).1 := by
  obtain ⟨hex, hnd⟩ := h
  rcases hp : s.activePairs userId with _ | pair
  · by_cases hq : (s.waitingQueue.find? (fun u => u.userId == userId)).isSome = true
    · simp only [handleNext, hp, hq, if_true]
      constructor
      · intro u hu
        obtain ⟨e, he, heq⟩ := List.any_eq_true.mp hu
        exact hex u (List.any_eq_true.mpr ⟨e, mem_of_mem_eraseP he, heq⟩)
      · exact nodup_map_eraseP _ _ _ hnd
    · simp only [handleNext, hp, hq, Bool.false_eq_true, if_false]
      exact ⟨hex, hnd⟩
  · simp only [handleNext, hp]
    apply handleJoin_inv
    constructor
    · intro u hu
      show (((s.activePairs.del userId).del pair.partnerId) u).isSome = false
      show (if u = pair.partnerId then none else
        (if u = userId then none else s.activePairs u)).isSome = false
      by_cases h1 : u = pair.partnerId
      · rw [if_pos h1]; rfl
      · rw [if_neg h1]
        by_cases h2 : u = userId
        · rw [if_pos h2]; rfl
        · rw [if_neg h2]; exact hex u hu
    · exact hnd

/-- Lemma: `handleMessage` does not touch the queue or the registry. -/
theorem handleMessage_inv (s : EngineState) (userId : String) (messageData : MessageData)
    (h : EngineInv s) : EngineInv (handleMessage s userId messageData).1 := by
  obtain ⟨hex, hnd⟩ := h
  rcases hp : s.activePairs userId with _ | pair
  · simp only [handleMessage, hp]
    exact ⟨hex, hnd⟩
  · simp only [handleMessage, hp]
    exact ⟨hex, hnd⟩

/-- Lemma: `reconnectPair` preserves the queue/registry invariant (whether or not
the reconnect succeeds). -/
theorem reconnectPair_inv (s : EngineState) (userId partnerId chatId partnerChatId : String)
    (now : Nat) (h : EngineInv s) :
    EngineInv (reconnectPair s userId partnerId chatId partnerChatId now).1 := by
  obtain ⟨hex, hnd⟩ := h
  by_cases hp : (s.activePairs partnerId).isSome = true
  · simp only [reconnectPair, hp, if_true]
    exact ⟨hex, hnd⟩
  · simp only [reconnectPair, hp, Bool.false_eq_true, if_false]
    have hnd1 : ((s.waitingQueue.eraseP (fun u => u.userId == userId)).map
        QueueEntry.userId).Nodup := nodup_map_eraseP _ _ _ hnd
    constructor
    · intro u hu
      obtain ⟨e, he, heq⟩ := List.any_eq_true.mp hu
      have hequ : e.userId = u := by simpa using heq
      have he1 : e ∈ s.waitingQueue.eraseP (fun x => x.userId == userId) :=
        mem_of_mem_eraseP he
      have he0 : e ∈ s.waitingQueue := mem_of_mem_eraseP he1
      have hne_user : u ≠ userId := by
        intro hc
        exact eraseP_userId_gone _ _ hnd e he1 (by rw [hequ, hc])
      have hne_partner : u ≠ partnerId := by
        intro hc
        exact eraseP_userId_gone _ _ hnd1 e he (by rw [hequ, hc])
      show ((((s.activePairs.set userId _).set partnerId _)) u).isSome = false
      show (if u = partnerId then _ else
        (if u = userId then _ else s.activePairs u)).isSome = false
      rw [if_neg hne_partner, if_neg hne_user]
      exact hex u (List.any_eq_true.mpr ⟨e, he0, heq⟩)
    · exact nodup_map_eraseP _ _ _ hnd1

/-- Every reachable engine state satisfies the queue/registry invariant. -/
theorem reachable_inv (s : EngineState) (h : Reachable s) : EngineInv s := by
  induction h with
  | empty =>
    exact ⟨fun u hu => by simp [isInQueue, initState] at hu,
           by simp [QueueNodup, queueIds, initState]⟩
  | join s userId chatId options now _ ih => exact handleJoin_inv s userId chatId options now ih
  | leave s userId now _ ih => exact handleLeave_inv s userId now ih
  | next s userId chatId now _ ih => exact handleNext_inv s userId chatId now ih
  | reconnect s userId partnerId chatId partnerChatId now _ ih =>
    exact reconnectPair_inv s userId partnerId chatId partnerChatId now ih
  | message s userId messageData _ ih => exact handleMessage_inv s userId messageData ih

/-- C6: in every state reachable from the empty state by engine operations
(handleJoin, handleLeave, handleNext, reconnectPair, and also handleMessage),
no user id is simultaneously a waiting-queue entry and a key of the
active-pairs registry. -/
theorem reachable_queue_registry_exclusive (s : EngineState) (h : Reachable s) :
    ∀ u, isInQueue s u = true → isInChat s u = false :=
  (reachable_inv s h).1

/-- Witness for C6 at a concrete reachable state: after a single join the
user is queued and therefore not in the registry. -/
theorem reachable_queue_registry_exclusive_witness :
    isInQueue (handleJoin initState "A" "cA" ⟨none, none, none⟩ 0).1 "A" = true ∧
    isInChat (handleJoin initState "A" "cA" ⟨none, none, none⟩ 0).1 "A" = false := by
  refine ⟨by decide, ?_⟩
  exact reachable_queue_registry_exclusive _
    (Reachable.join initState "A" "cA" ⟨none, none, none⟩ 0 Reachable.empty) "A" (by decide)

/-- C4: when a join by `userId` passes the rejection checks, the engine pairs
the joiner with exactly the first queue entry (in insertion order) whose id
differs from the joiner's and which is compatible; every earlier entry fails
that test, the partner is never the joiner itself, and with no such entry the
joiner is appended to the queue unpaired. -/
theorem handleJoin_fifo_earliest_compatible (s : EngineState) (userId chatId : String)
    (options : JoinOptions) (now : Nat)
    (hp : (s.activePairs userId).isSome = false)
    (hq : (s.waitingQueue.find? (fun u => u.userId == userId)).isSome = false) :
    (∀ E, s.waitingQueue.find? (joinPred userId ⟨options.gender, options.preference⟩) =
        some E →
      (handleJoin s userId chatId options now).1.activePairs userId =
        some ⟨E.userId, E.chatId⟩ ∧
      E.userId ≠ userId ∧
      canMatch ⟨options.gender, options.preference⟩ E.filters = true ∧
      ∃ l₁ l₂, s.waitingQueue = l₁ ++ E :: l₂ ∧
        ∀ F ∈ l₁, joinPred userId ⟨options.gender, options.preference⟩ F = false) ∧
    (s.waitingQueue.find? (joinPred userId ⟨options.gender, options.preference⟩) = none →
      (handleJoin s userId chatId options now).1.activePairs userId = none ∧
      (handleJoin s userId chatId options now).1.waitingQueue =
        s.waitingQueue ++ [⟨userId, chatId, options.gender, options.preference⟩]) := by
  have hp' : ¬ (s.activePairs userId).isSome = true := by rw [hp]; exact Bool.false_ne_true
  have hq' : ¬ (s.waitingQueue.find? (fun u => u.userId == userId)).isSome = true := by
    rw [hq]; exact Bool.false_ne_true
  constructor
  · intro E hf
    have hpred : joinPred userId ⟨options.gender, options.preference⟩ E = true :=
      List.find?_some hf
    have hand := hpred
    unfold joinPred at hand
    have hne : E.userId ≠ userId := by
      intro hc
      simp [hc] at hand
    have hcm : canMatch ⟨options.gender, options.preference⟩ E.filters = true := by
      cases hcm' : canMatch ⟨options.gender, options.preference⟩ E.filters
      · simp [hcm'] at hand
      · rfl
    simp only [handleJoin, hp, hq, Bool.false_eq_true, if_false, hf]
    refine ⟨?_, hne, hcm, ?_⟩
    · show (if userId = E.userId then some (⟨userId, chatId⟩ : PairInfo) else
        if userId = userId then some ⟨E.userId, E.chatId⟩ else s.activePairs userId) =
          some ⟨E.userId, E.chatId⟩
      rw [if_neg (Ne.symm hne), if_pos rfl]
    · obtain ⟨l₁, l₂, hsplit, hl₁, _⟩ := find?_split _ _ _ hf
      exact ⟨l₁, l₂, hsplit, hl₁⟩
  · intro hf
    simp only [handleJoin, hp, hq, Bool.false_eq_true, if_false, hf]
    refine ⟨?_, by simp⟩
    rcases hnone : s.activePairs userId with _ | v
    · simp
    · rw [hnone] at hp
      simp at hp

/-- A queue for the C4 witness: the head entry is incompatible with the
joiner, the second entry is compatible. -/
def sFifo : EngineState :=
  { initState with waitingQueue :=
      [⟨"B", "cB", some "male", some "male"⟩, ⟨"C", "cC", some "male", some "female"⟩] }

/-- Witness for C4: the joiner (female seeking male) skips the first queued
entry (male seeking male) and pairs with the second (male seeking female). -/
theorem handleJoin_fifo_witness :
    (handleJoin sFifo "A" "cA" ⟨some "female", some "male", none⟩ 0).1.activePairs "A" =
      some ⟨"C", "cC"⟩ := by
  have h := handleJoin_fifo_earliest_compatible sFifo "A" "cA"
    ⟨some "female", some "male", none⟩ 0 (by decide) (by decide)
  exact (h.1 ⟨"C", "cC", some "male", some "female"⟩ (by decide)).1

/-- C10: a join rejected as already-chatting or already-waiting leaves the
queue, the registry, the sessions and the stats untouched, but has already
overwritten the user's stored delivery address with the new chat id. -/
theorem handleJoin_rejection_frame (s : EngineState) (userId chatId : String)
    (options : JoinOptions) (now : Nat)
    (h : (s.activePairs userId).isSome = true ∨
         (s.waitingQueue.find? (fun u => u.userId == userId)).isSome = true) :
    (handleJoin s userId chatId options now).1.waitingQueue = s.waitingQueue ∧
    (handleJoin s userId chatId options now).1.activePairs = s.activePairs ∧
    (handleJoin s userId chatId options now).1.userStates = s.userStates ∧
    (handleJoin s userId chatId options now).1.userStats = s.userStats ∧
    (handleJoin s userId chatId options now).1.userChatIds =
      s.userChatIds.set userId chatId ∧
    (handleJoin s userId chatId options now).1.userChatIds userId = some chatId ∧
    ((handleJoin s userId chatId options now).2 =
        [Response.alreadyChatting userId chatId] ∨
     (handleJoin s userId chatId options now).2 =
        [Response.alreadyWaiting userId chatId]) := by
  by_cases h1 : (s.activePairs userId).isSome = true
  · simp [handleJoin, h1, SMap.set]
  · have h2 := h.resolve_left h1
    simp [handleJoin, h1, h2, SMap.set]

/-- A state for the C10 witness: user "A" already has a pair. -/
def sRej : EngineState :=
  { initState with activePairs := SMap.empty.set "A" ⟨"B", "cB"⟩ }

/-- Witness for C10: the rejected join still rewrote "A"'s delivery address
and changed nothing else. -/
theorem handleJoin_rejection_frame_witness :
    (handleJoin sRej "A" "cNew" ⟨none, none, none⟩ 5).1.userChatIds "A" = some "cNew" ∧
    (handleJoin sRej "A" "cNew" ⟨none, none, none⟩ 5).1.waitingQueue = sRej.waitingQueue ∧
    (handleJoin sRej "A" "cNew" ⟨none, none, none⟩ 5).1.activePairs = sRej.activePairs := by
  have h := handleJoin_rejection_frame sRej "A" "cNew" ⟨none, none, none⟩ 5
    (Or.inl (by decide))
  exact ⟨h.2.2.2.2.2.1, h.1, h.2.1⟩

/-- Registry symmetry: every registry entry's partner has an entry pointing
back. -/
def registrySymmetric (s : EngineState) : Prop :=
  ∀ u pr, s.activePairs u = some pr →
    ∃ q, s.activePairs pr.partnerId = some q ∧ q.partnerId = u

/-- The state reached by reconnecting A with B and then A with C:
`reconnectPair` never checks whether its *first* argument already has a pair,
so B's registry entry still names A while A's entry now names C. -/
def sBroken : EngineState :=
  (reconnectPair (reconnectPair initState "A" "B" "cA" "cB" 0).1 "A" "C" "cA" "cC" 1).1

/-- C1 (code bug): a reachable state whose registry is asymmetric.  Both
operations are `reconnectPair` steps, so `sBroken` is reachable, yet B maps
to A while A maps to C — the registry-symmetry and one-partner invariant is
broken by `reconnectPair`'s missing self-pair check. -/
theorem reconnect_overwrite_breaks_symmetry :
    Reachable sBroken ∧
    sBroken.activePairs "B" = some ⟨"A", "cA"⟩ ∧
    sBroken.activePairs "A" = some ⟨"C", "cC"⟩ ∧
    ¬ registrySymmetric sBroken := by
  refine ⟨?_, by decide, by decide, ?_⟩
  · exact Reachable.reconnect _ "A" "C" "cA" "cC" 1
      (Reachable.reconnect _ "A" "B" "cA" "cB" 0 Reachable.empty)
  · intro hsym
    obtain ⟨q, hq, hqp⟩ := hsym "B" ⟨"A", "cA"⟩ (by decide)
    have hq' : sBroken.activePairs "A" = some q := hq
    have hA : sBroken.activePairs "A" = some ⟨"C", "cC"⟩ := by decide
    rw [hA] at hq'
    injection hq' with hqe
    rw [← hqe] at hqp
    exact absurd hqp (by decide)

/-- The state after user U1 joined searching for an "english" partner. -/
def sLang1 : EngineState :=
  (handleJoin initState "U1" "c1" ⟨none, none, some "english"⟩ 0).1

/-- C3 (code bug): `handleJoin` destructures only `gender` and `preference`
out of its options, and `canMatch` never inspects a language, so a joiner
declaring "hindi" is immediately paired with the queued "english" speaker. -/
theorem join_ignores_language_pairs_mismatched :
    (handleJoin sLang1 "U2" "c2" ⟨none, none, some "hindi"⟩ 0).2 =
      [Response.matched "U2" "c2" "U1" "c1"] ∧
    (handleJoin sLang1 "U2" "c2" ⟨none, none, some "hindi"⟩ 0).1.activePairs "U1" =
      some ⟨"U2", "c2"⟩ ∧
    (handleJoin sLang1 "U2" "c2" ⟨none, none, some "hindi"⟩ 0).1.activePairs "U2" =
      some ⟨"U1", "c1"⟩ := by
  refine ⟨by decide, by decide, by decide⟩

/-- With no stored skip record the undo command reports expiry. -/
theorem handleUndoSkip_expired_of_none (s : EngineState) (chatId userId : String)
    (now : Nat) (h : s.skippedPartners userId = none) :
    (handleUndoSkip s chatId userId now).2 = UndoOutcome.expired := by
  simp only [handleUndoSkip, getSkippedPartner, h]
/-- C5: undo-skip fails with `expired` exactly when the skip record is absent
or strictly older than the 10-second window (an expired record is deleted by
the check); with a live record it fails with `partner_busy` exactly when the
skipped partner already has a pair; otherwise it removes both users from the
waiting queue, re-creates the symmetric pair unconditionally (no
compatibility filters are consulted), consumes the skip record, and a second
undo of the same skip therefore reports `expired`. -/
theorem handleUndoSkip_spec (s : EngineState) (chatId userId : String) (now : Nat) :
    ((handleUndoSkip s chatId userId now).2 = UndoOutcome.expired ↔
      (s.skippedPartners userId = none ∨
       ∃ r, s.skippedPartners userId = some r ∧ now - r.timestamp > UNDO_TIMEOUT)) ∧
    (∀ r, s.skippedPartners userId = some r → now - r.timestamp > UNDO_TIMEOUT →
      (handleUndoSkip s chatId userId now).1.skippedPartners userId = none) ∧
    (∀ r, s.skippedPartners userId = some r → ¬ now - r.timestamp > UNDO_TIMEOUT →
      ((handleUndoSkip s chatId userId now).2 = UndoOutcome.partnerBusy ↔
        (s.activePairs r.partnerId).isSome = true)) ∧
    (∀ r, s.skippedPartners userId = some r → ¬ now - r.timestamp > UNDO_TIMEOUT →
      (s.activePairs r.partnerId).isSome = false → r.partnerId ≠ userId →
      (handleUndoSkip s chatId userId now).2 = UndoOutcome.reconnected ∧
      (handleUndoSkip s chatId userId now).1.activePairs userId =
        some ⟨r.partnerId, r.partnerChatId⟩ ∧
      (handleUndoSkip s chatId userId now).1.activePairs r.partnerId =
        some ⟨userId, chatId⟩ ∧
      (handleUndoSkip s chatId userId now).1.waitingQueue =
        (s.waitingQueue.eraseP (fun u => u.userId == userId)).eraseP
          (fun u => u.userId == r.partnerId) ∧
      (handleUndoSkip s chatId userId now).1.skippedPartners userId = none ∧
      (handleUndoSkip (handleUndoSkip s chatId userId now).1 chatId userId now).2 =
        UndoOutcome.expired) := by
  rcases hr : s.skippedPartners userId with _ | r
  · refine ⟨by simp [handleUndoSkip, getSkippedPartner, hr], ?_, ?_, ?_⟩
    · intro r' hr'
      cases hr'
    · intro r' hr'
      cases hr'
    · intro r' hr'
      cases hr'
  · by_cases ht : now - r.timestamp > UNDO_TIMEOUT
    · refine ⟨?_, ?_, ?_, ?_⟩
      · simp [handleUndoSkip, getSkippedPartner, hr, ht]
      · intro r' hr' _
        simp [handleUndoSkip, getSkippedPartner, hr, ht, SMap.del]
      · intro r' hr' ht2
        injection hr' with he
        subst he
        exact absurd ht ht2
      · intro r' hr' ht2
        injection hr' with he
        subst he
        exact absurd ht ht2
    · by_cases hb : (s.activePairs r.partnerId).isSome = true
      · refine ⟨?_, ?_, ?_, ?_⟩
        · simp [handleUndoSkip, getSkippedPartner, hr, ht, reconnectPair, hb]
        · intro r' hr' ht2
          injection hr' with he
          subst he
          exact absurd ht2 ht
        · intro r' hr' ht2
          injection hr' with he
          subst he
          simp [handleUndoSkip, getSkippedPartner, hr, ht, reconnectPair, hb]
        · intro r' hr' ht2 hfree hne
          injection hr' with he
          subst he
          rw [hb] at hfree
          cases hfree
      · refine ⟨?_, ?_, ?_, ?_⟩
        · simp [handleUndoSkip, getSkippedPartner, hr, ht, reconnectPair, hb]
        · intro r' hr' ht2
          injection hr' with he
          subst he
          exact absurd ht2 ht
        · intro r' hr' ht2
          injection hr' with he
          subst he
          simp [handleUndoSkip, getSkippedPartner, hr, ht, reconnectPair, hb]
        · intro r' hr' ht2 hfree hne
          injection hr' with he
          subst he
          have hmain : (handleUndoSkip s chatId userId now).1.skippedPartners userId =
              none := by
            simp [handleUndoSkip, getSkippedPartner, hr, ht, reconnectPair, hb,
              clearSkippedPartner, SMap.del]
          refine ⟨?_, ?_, ?_, ?_, hmain,
            handleUndoSkip_expired_of_none _ chatId userId now hmain⟩
          · simp [handleUndoSkip, getSkippedPartner, hr, ht, reconnectPair, hb]
          · simp [handleUndoSkip, getSkippedPartner, hr, ht, reconnectPair, hb, SMap.set,
              Ne.symm hne]
          · simp [handleUndoSkip, getSkippedPartner, hr, ht, reconnectPair, hb, SMap.set]
          · simp [handleUndoSkip, getSkippedPartner, hr, ht, reconnectPair, hb]

/-- A state for the C5 witness: user "A" skipped partner "B" at time 0 and
nobody is paired. -/
def sUndo : EngineState :=
  { initState with skippedPartners := SMap.empty.set "A" ⟨"B", "cB", 0⟩ }

/-- Witness for C5: an undo 5 seconds after the skip reconnects the pair
symmetrically and consumes the record, so a repeated undo reports expiry. -/
theorem handleUndoSkip_witness :
    (handleUndoSkip sUndo "cA" "A" 5000).2 = UndoOutcome.reconnected ∧
    (handleUndoSkip sUndo "cA" "A" 5000).1.activePairs "A" = some ⟨"B", "cB"⟩ ∧
    (handleUndoSkip sUndo "cA" "A" 5000).1.activePairs "B" = some ⟨"A", "cA"⟩ ∧
    (handleUndoSkip (handleUndoSkip sUndo "cA" "A" 5000).1 "cA" "A" 5000).2 =
      UndoOutcome.expired := by
  have h := (handleUndoSkip_spec sUndo "cA" "A" 5000).2.2.2 ⟨"B", "cB", 0⟩ (by decide)
    (by decide) (by decide) (by decide)
  exact ⟨h.1, h.2.1, h.2.2.1, h.2.2.2.2.2⟩

/-- C7: `reportUser` rejects a repeated (reporter, reported) pair unchanged;
a first report marks the pair, bumps the reported user's count, stamps the
report time, and sets a 24-hour ban at count ≥ 5, else a 30-minute ban at
count ≥ 3, else keeps the previous ban; other users' records are untouched
and an immediate second report by the same reporter is rejected as a
duplicate with both maps unchanged. -/
theorem reportUser_spec (sess : StrSet) (reports : SMap ReportRecord)
    (reporterId reportedId : String) (now : Nat) :
    (sess (sessionKey reporterId reportedId) = true →
      reportUser sess reports reporterId reportedId now =
        (sess, reports, ReportOutcome.duplicate)) ∧
    (sess (sessionKey reporterId reportedId) = false →
      (reportUser sess reports reporterId reportedId now).2.2 =
        ReportOutcome.submitted ∧
      (reportUser sess reports reporterId reportedId now).2.1 reportedId =
        some ⟨((reports reportedId).getD ⟨0, none, none⟩).count + 1, some now,
          if ((reports reportedId).getD ⟨0, none, none⟩).count + 1 ≥ 5 then
            some (now + 24 * 60 * 60 * 1000)
          else if ((reports reportedId).getD ⟨0, none, none⟩).count + 1 ≥ 3 then
            some (now + 30 * 60 * 1000)
          else ((reports reportedId).getD ⟨0, none, none⟩).banUntil⟩ ∧
      (∀ other, other ≠ reportedId →
        (reportUser sess reports reporterId reportedId now).2.1 other =
          reports other) ∧
      reportUser (reportUser sess reports reporterId reportedId now).1
          (reportUser sess reports reporterId reportedId now).2.1
          reporterId reportedId now =
        ((reportUser sess reports reporterId reportedId now).1,
         (reportUser sess reports reporterId reportedId now).2.1,
         ReportOutcome.duplicate)) := by
  constructor
  · intro hk
    simp [reportUser, hk]
  · intro hk
    refine ⟨?_, ?_, ?_, ?_⟩
    · simp [reportUser, hk]
    · simp [reportUser, hk, TEMP_BAN_THRESHOLD, LONG_BAN_THRESHOLD,
        TEMP_BAN_DURATION, LONG_BAN_DURATION, SMap.set]
    · intro other hother
      simp [reportUser, hk, SMap.set, hother]
    · have hdup : ∀ (sess2 : StrSet) (rep2 : SMap ReportRecord),
          sess2 (sessionKey reporterId reportedId) = true →
          reportUser sess2 rep2 reporterId reportedId now =
            (sess2, rep2, ReportOutcome.duplicate) := by
        intro sess2 rep2 hk2
        simp [reportUser, hk2]
      exact hdup _ _ (by simp [reportUser, hk, StrSet.add])

/-- Prior reports for the C7 witness: "B" was already reported twice. -/
def repPrior : SMap ReportRecord := SMap.empty.set "B" ⟨2, some 50, none⟩

/-- Witness for C7: a third (fresh-reporter) report pushes the count to 3 and
installs the 30-minute ban; the same reporter's immediate second attempt is a
duplicate. -/
theorem reportUser_witness :
    (reportUser StrSet.empty repPrior "A" "B" 100).2.2 = ReportOutcome.submitted ∧
    (reportUser StrSet.empty repPrior "A" "B" 100).2.1 "B" =
      some ⟨3, some 100, some (100 + 30 * 60 * 1000)⟩ ∧
    reportUser (reportUser StrSet.empty repPrior "A" "B" 100).1
        (reportUser StrSet.empty repPrior "A" "B" 100).2.1 "A" "B" 100 =
      ((reportUser StrSet.empty repPrior "A" "B" 100).1,
       (reportUser StrSet.empty repPrior "A" "B" 100).2.1,
       ReportOutcome.duplicate) := by
  have h := (reportUser_spec StrSet.empty repPrior "A" "B" 100).2 (by decide)
  exact ⟨h.1, h.2.1.trans (by decide), h.2.2.2⟩

/-- The code-unit comparison is asymmetric. -/
theorem strListLtb_asymm : ∀ x y, strListLtb x y = true → strListLtb y x = false := by
  intro x
  induction x with
  | nil =>
    intro y h
    cases y <;> simp_all [strListLtb]
  | cons c cs ih =>
    intro y h
    cases y with
    | nil => simp_all [strListLtb]
    | cons d ds =>
      simp only [strListLtb] at h ⊢
      by_cases hcd : c < d
      · have hdc : ¬ d < c := lt_asymm hcd
        simp [hcd, hdc]
      · by_cases hdc : d < c
        · simp [hcd, hdc] at h
        · simp only [hcd, hdc, if_false, if_neg] at h ⊢
          simp [hcd, hdc, ih ds h]

/-- Two lists neither of which precedes the other are equal. -/
theorem strListLtb_eq_of_not_lt : ∀ x y, strListLtb x y = false →
    strListLtb y x = false → x = y := by
  intro x
  induction x with
  | nil =>
    intro y h1 _
    cases y with
    | nil => rfl
    | cons d ds => simp [strListLtb] at h1
  | cons c cs ih =>
    intro y h1 h2
    cases y with
    | nil => simp [strListLtb] at h2
    | cons d ds =>
      simp only [strListLtb] at h1 h2
      by_cases hcd : c < d
      · simp [hcd] at h1
      · by_cases hdc : d < c
        · simp [hdc] at h2
        · have hce : c = d := le_antisymm (not_lt.mp hdc) (not_lt.mp hcd)
          rw [hce]
          rw [if_neg hcd, if_neg (by rw [hce] at hdc ⊢; exact hdc)] at h1
          rw [if_neg hdc, if_neg (by rw [hce] at hcd ⊢; exact hcd)] at h2
          rw [ih ds h1 h2]

/-- Lemma: `getPairKey` is independent of the argument order: the record is keyed by
the unordered pair. -/
theorem getPairKey_comm (a b : String) : getPairKey a b = getPairKey b a := by
  unfold getPairKey strLtb
  by_cases h1 : strListLtb b.data a.data = true
  · have h2 : strListLtb a.data b.data = false := strListLtb_asymm _ _ h1
    simp [h1, h2]
  · have h1' : strListLtb b.data a.data = false := by
      cases hv : strListLtb b.data a.data
      · rfl
      · exact absurd hv h1
    by_cases h2 : strListLtb a.data b.data = true
    · simp [h1', h2]
    · have h2' : strListLtb a.data b.data = false := by
        cases hv : strListLtb a.data b.data
        · rfl
        · exact absurd hv h2
      have hd : a.data = b.data := strListLtb_eq_of_not_lt _ _ h2' h1'
      have hab : a = b := by
        cases a
        cases b
        exact congrArg String.mk hd
      subst hab
      simp

/-- C8: for a paired user the reveal command is a two-step mutual-consent
protocol on the record keyed by the unordered pair of ids: a repeated request
by the same requester is rejected with the record untouched; an outstanding
request by the partner is treated as mutual acceptance and the record is
cleared; otherwise the one-sided request naming the requester is stored. -/
theorem handleReveal_spec (s : EngineState) (chatId userId uname : String)
    (now : Nat) (pair : PairInfo) (hpair : s.activePairs userId = some pair) :
    getPairKey userId pair.partnerId = getPairKey pair.partnerId userId ∧
    (∀ req, s.revealRequests (getPairKey userId pair.partnerId) = some req →
      req.requesterId = userId →
      handleReveal s chatId userId (some uname) now =
        (s, RevealOutcome.alreadyRequested)) ∧
    (∀ req, s.revealRequests (getPairKey userId pair.partnerId) = some req →
      req.requesterId = pair.partnerId → pair.partnerId ≠ userId →
      (handleReveal s chatId userId (some uname) now).2 =
        RevealOutcome.mutualAccept uname (req.username.getD "unknown") ∧
      (handleReveal s chatId userId (some uname) now).1.revealRequests
        (getPairKey userId pair.partnerId) = none) ∧
    (s.revealRequests (getPairKey userId pair.partnerId) = none →
      (handleReveal s chatId userId (some uname) now).2 =
        RevealOutcome.requestSent ∧
      (handleReveal s chatId userId (some uname) now).1.revealRequests
        (getPairKey userId pair.partnerId) = some ⟨userId, some uname, now⟩) := by
  refine ⟨getPairKey_comm _ _, ?_, ?_, ?_⟩
  · intro req hreq hrid
    simp [handleReveal, hpair, hasUserRequestedReveal, getRevealRequest, hreq, hrid]
  · intro req hreq hrid hne
    have hguard : hasUserRequestedReveal s.revealRequests userId pair.partnerId =
        false := by
      simp [hasUserRequestedReveal, getRevealRequest, hreq, hrid, hne]
    constructor
    · simp [handleReveal, hpair, hguard, getRevealRequest, hreq, hrid]
    · simp [handleReveal, hpair, hguard, getRevealRequest, hreq, hrid,
        clearRevealRequest, SMap.del]
  · intro hreq
    have hguard : hasUserRequestedReveal s.revealRequests userId pair.partnerId =
        false := by
      simp [hasUserRequestedReveal, getRevealRequest, hreq]
    constructor
    · simp [handleReveal, hpair, hguard, getRevealRequest, hreq]
    · simp [handleReveal, hpair, hguard, getRevealRequest, hreq, setRevealRequest,
        SMap.set]

/-- A state for the C8 witness: "A" and "B" are paired and "B" has an
outstanding reveal request carrying username "bob". -/
def sReveal : EngineState :=
  { initState with
    activePairs := (SMap.empty.set "A" ⟨"B", "cB"⟩).set "B" ⟨"A", "cA"⟩,
    revealRequests := SMap.empty.set (getPairKey "A" "B") ⟨"B", some "bob", 0⟩ }

/-- Witness for C8: "A"'s request meets "B"'s outstanding one — mutual
acceptance, and the record is cleared. -/
theorem handleReveal_witness :
    (handleReveal sReveal "cA" "A" (some "alice") 7).2 =
      RevealOutcome.mutualAccept "alice" "bob" ∧
    (handleReveal sReveal "cA" "A" (some "alice") 7).1.revealRequests
      (getPairKey "A" "B") = none := by
  have h := (handleReveal_spec sReveal "cA" "A" "alice" 7 ⟨"B", "cB"⟩ (by decide)).2.2.1
    ⟨"B", some "bob", 0⟩ (by decide) (by decide) (by decide)
  exact ⟨h.1, h.2⟩
